import Mathlib

/-!
Verification of the Acts track-reconstruction core against its sources:
`GeometryID` (GeometryID.h, embedded at the end of
`Core/src/Surfaces/PerigeeSurface.cpp`),
`AbstractVolume::createBoundarySurfaces` (`Core/src/Volumes/AbstractVolume.cpp`),
and the `KalmanActor` (`Core/include/Acts/Fitter/KalmanActor.hpp`).
-/

/-! ## GeometryID

`typedef uint64_t geo_id_value;` — machine 64-bit values are represented as
`Nat` kept below `2 ^ 64`, with the wrap-around of `operator+=` made explicit
by `% 2 ^ 64`. -/

/-- `class GeometryID { geo_id_value m_value; ... }`. -/
structure GeometryID where
  m_value : Nat
  deriving DecidableEq, Repr

def GeometryID.volume_mask : Nat := 0xff00000000000000

def GeometryID.volume_shift : Nat := 56

def GeometryID.boundary_mask : Nat := 0x00ff000000000000

def GeometryID.boundary_shift : Nat := 48

def GeometryID.layer_mask : Nat := 0x0000ff0000000000

def GeometryID.layer_shift : Nat := 40

def GeometryID.approach_mask : Nat := 0x000000ff00000000

def GeometryID.approach_shift : Nat := 32

def GeometryID.sensitive_mask : Nat := 0x00000000ffff0000

def GeometryID.sensitive_shift : Nat := 16

def GeometryID.channel_mask : Nat := 0x000000000000ffff

def GeometryID.channel_shift : Nat := 0

/-- `GeometryID::value(geo_id_value mask, geo_id_value shift) const`:
`if (mask) return ((m_value & mask) >> shift); return m_value;`. -/
def GeometryID.value (g : GeometryID) (mask shift : Nat) : Nat :=
  if mask ≠ 0 then (g.m_value &&& mask) >>> shift else g.m_value

/-- `GeometryID::operator+=(geo_id_value add_value)`:
`m_value += add_value;` — a raw uint64 addition, hence the wrap `% 2 ^ 64`. -/
def GeometryID.addValue (g : GeometryID) (add_value : Nat) : GeometryID :=
  ⟨(g.m_value + add_value) % 2 ^ 64⟩

/-- The six subfields defined by the mask/shift constants of `GeometryID`. -/
inductive GeoField
  | volume
  | boundary
  | layer
  | approach
  | sensitive
  | channel
  deriving DecidableEq, Repr

def GeoField.mask : GeoField → Nat
  | .volume => GeometryID.volume_mask
  | .boundary => GeometryID.boundary_mask
  | .layer => GeometryID.layer_mask
  | .approach => GeometryID.approach_mask
  | .sensitive => GeometryID.sensitive_mask
  | .channel => GeometryID.channel_mask

def GeoField.shift : GeoField → Nat
  | .volume => GeometryID.volume_shift
  | .boundary => GeometryID.boundary_shift
  | .layer => GeometryID.layer_shift
  | .approach => GeometryID.approach_shift
  | .sensitive => GeometryID.sensitive_shift
  | .channel => GeometryID.channel_shift

/-- Bit width of each subfield (8 bits for volume/boundary/layer/approach,
16 bits for sensitive/channel), read off the mask constants. -/
def GeoField.width : GeoField → Nat
  | .volume => 8
  | .boundary => 8
  | .layer => 8
  | .approach => 8
  | .sensitive => 16
  | .channel => 16

theorem GeoField.mask_eq (f : GeoField) : f.mask = (2 ^ f.width - 1) * 2 ^ f.shift := by
  cases f <;> decide

theorem GeoField.mask_ne_zero (f : GeoField) : f.mask ≠ 0 := by
  cases f <;> decide

theorem GeoField.shift_width_le (f : GeoField) : f.shift + f.width ≤ 64 := by
  cases f <;> decide

/-- Two distinct subfields occupy separated bit ranges. -/
theorem GeoField.separated (f1 f2 : GeoField) (hne : f1 ≠ f2) :
    f1.shift + f1.width ≤ f2.shift ∨ f2.shift + f2.width ≤ f1.shift := by
  cases f1 <;> cases f2 <;> first
    | exact absurd rfl hne
    | decide

/-- Masking with a contiguous field mask is arithmetic extraction. -/
theorem and_field_mask (v s w : Nat) :
    v &&& (2 ^ w - 1) * 2 ^ s = v / 2 ^ s % 2 ^ w * 2 ^ s := by
  apply Nat.eq_of_testBit_eq
  intro i
  rw [← Nat.shiftLeft_eq (2 ^ w - 1) s, ← Nat.shiftLeft_eq (v / 2 ^ s % 2 ^ w) s,
    ← Nat.shiftRight_eq_div_pow v s]
  simp only [Nat.testBit_and, Nat.testBit_shiftLeft, Nat.testBit_mod_two_pow,
    Nat.testBit_shiftRight, Nat.testBit_two_pow_sub_one]
  by_cases hsi : s ≤ i
  · have hi : s + (i - s) = i := by omega
    simp [ge_iff_le, hsi, hi, Bool.and_comm, Bool.and_left_comm]
  · simp [ge_iff_le, hsi]

/-- `value(mask, shift)` of a subfield, in div/mod form. -/
theorem GeometryID.value_field (g : GeometryID) (f : GeoField) :
    g.value f.mask f.shift = g.m_value / 2 ^ f.shift % 2 ^ f.width := by
  rw [GeometryID.value, if_pos f.mask_ne_zero, f.mask_eq, and_field_mask,
    Nat.shiftRight_eq_div_pow, Nat.mul_div_cancel _ (Nat.two_pow_pos f.shift)]

/-- Adding an addend confined to the field at `s2`/`w2` that does not overflow
that field keeps the whole value below `2 ^ 64` and the low part below the
field's upper boundary. -/
theorem field_decomp (v b s2 w2 : Nat) (hv : v < 2 ^ 64) (hsw : s2 + w2 ≤ 64)
    (hnc : v / 2 ^ s2 % 2 ^ w2 + b < 2 ^ w2) :
    v % 2 ^ (s2 + w2) + b * 2 ^ s2 < 2 ^ (s2 + w2) ∧ v + b * 2 ^ s2 < 2 ^ 64 := by
  set P : Nat := 2 ^ (s2 + w2) with hP
  have hPval : P = 2 ^ s2 * 2 ^ w2 := by rw [hP, pow_add]
  have hs2pos : 0 < 2 ^ s2 := Nat.two_pow_pos s2
  have hw2pos : 0 < 2 ^ w2 := Nat.two_pow_pos w2
  set q : Nat := v / P with hq
  set r : Nat := v % P with hr
  have hvqr : v = q * P + r := by
    rw [hq, hr, Nat.mul_comm]
    exact (Nat.div_add_mod v P).symm
  have hrP : r < P := Nat.mod_lt v (by positivity)
  -- the field content is `r / 2 ^ s2`
  have hrdiv : r / 2 ^ s2 < 2 ^ w2 := by
    rw [Nat.div_lt_iff_lt_mul hs2pos, Nat.mul_comm]
    rw [← hPval] at *
    exact hrP
  have hcontent : v / 2 ^ s2 % 2 ^ w2 = r / 2 ^ s2 := by
    have : v / 2 ^ s2 = r / 2 ^ s2 + q * 2 ^ w2 := by
      rw [hvqr, hPval]
      rw [Nat.add_comm (q * (2 ^ s2 * 2 ^ w2)) r]
      rw [show q * (2 ^ s2 * 2 ^ w2) = q * 2 ^ w2 * 2 ^ s2 by ring]
      rw [Nat.add_mul_div_right _ _ hs2pos]
    rw [this, Nat.add_mul_mod_self_right, Nat.mod_eq_of_lt hrdiv]
  rw [hcontent] at hnc
  -- `r + b * 2 ^ s2 < P`
  have hrb : r + b * 2 ^ s2 < P := by
    have hsplit : r = r % 2 ^ s2 + r / 2 ^ s2 * 2 ^ s2 := by
      rw [Nat.mod_add_div']
    have hmod : r % 2 ^ s2 < 2 ^ s2 := Nat.mod_lt r hs2pos
    have hle : r / 2 ^ s2 + b + 1 ≤ 2 ^ w2 := hnc
    calc r + b * 2 ^ s2 = r % 2 ^ s2 + (r / 2 ^ s2 + b) * 2 ^ s2 := by
          rw [Nat.add_mul]; omega
      _ < 2 ^ s2 + (r / 2 ^ s2 + b) * 2 ^ s2 := by omega
      _ = (r / 2 ^ s2 + b + 1) * 2 ^ s2 := by ring
      _ ≤ 2 ^ w2 * 2 ^ s2 := Nat.mul_le_mul_right _ hle
      _ = P := by rw [hPval]; ring
  refine ⟨hrb, ?_⟩
  -- no wrap below `2 ^ 64`
  obtain ⟨d, hd⟩ : ∃ d, 64 = s2 + w2 + d := ⟨64 - (s2 + w2), by omega⟩
  have h64 : (2 : Nat) ^ 64 = 2 ^ d * P := by
    rw [hd, hP, pow_add]; ring
  have hqd : q < 2 ^ d := by
    rw [hq, Nat.div_lt_iff_lt_mul (by positivity : (0 : Nat) < P), ← h64]
    exact hv
  have hqP : q * P ≤ (2 ^ d - 1) * P := Nat.mul_le_mul_right _ (by omega)
  have hsub : (2 ^ d - 1) * P = 2 ^ d * P - P := by
    rw [Nat.sub_one_mul]
  have hPle : P ≤ 2 ^ d * P := Nat.le_mul_of_pos_left P (Nat.two_pow_pos d)
  have : v + b * 2 ^ s2 = q * P + (r + b * 2 ^ s2) := by omega
  omega

/-- Extracting a field entirely above the modified field is unaffected. -/
theorem field_above_preserved (v b s2 w2 s1 : Nat)
    (hrb : v % 2 ^ (s2 + w2) + b * 2 ^ s2 < 2 ^ (s2 + w2)) (hup : s2 + w2 ≤ s1) :
    (v + b * 2 ^ s2) / 2 ^ s1 = v / 2 ^ s1 := by
  set P : Nat := 2 ^ (s2 + w2) with hP
  have hPpos : 0 < P := Nat.two_pow_pos _
  obtain ⟨e, he⟩ : ∃ e, s1 = (s2 + w2) + e := ⟨s1 - (s2 + w2), by omega⟩
  have hs1 : (2 : Nat) ^ s1 = P * 2 ^ e := by rw [he, hP, pow_add]
  have hvqr : v = P * (v / P) + v % P := (Nat.div_add_mod v P).symm
  have hrP : v % P < P := Nat.mod_lt v hPpos
  have hdiv1 : (v + b * 2 ^ s2) / P = v / P := by
    conv_lhs => rw [hvqr]
    rw [Nat.add_assoc, Nat.mul_add_div hPpos, Nat.div_eq_of_lt hrb, Nat.add_zero]
  rw [hs1, ← Nat.div_div_eq_div_mul, ← Nat.div_div_eq_div_mul, hdiv1]

/-- Extracting a field entirely below the modified field is unaffected. -/
theorem field_below_preserved (v b s2 s1 w1 : Nat) (hdown : s1 + w1 ≤ s2) :
    (v + b * 2 ^ s2) / 2 ^ s1 % 2 ^ w1 = v / 2 ^ s1 % 2 ^ w1 := by
  have hs1pos : 0 < (2 : Nat) ^ s1 := Nat.two_pow_pos s1
  obtain ⟨e, he⟩ : ∃ e, s2 = s1 + w1 + e := ⟨s2 - (s1 + w1), by omega⟩
  have hsplit : b * 2 ^ s2 = b * 2 ^ e * 2 ^ w1 * 2 ^ s1 := by
    rw [he, pow_add, pow_add]; ring
  rw [hsplit, Nat.add_mul_div_right _ _ hs1pos, Nat.add_mul_mod_self_right]

/-- C4 (counterexample): with `v = 0xffff`, addend `1` confined to the channel
mask, and the (disjoint) sensitive field observed, the raw `+=` carries out of
the channel field and changes the sensitive field: the claim as stated is
false. -/
theorem geometryID_crossfield_add_counterexample :
    1 &&& GeometryID.channel_mask = 1 ∧
    GeometryID.sensitive_mask &&& GeometryID.channel_mask = 0 ∧
    ((GeometryID.mk 0xffff).addValue 1).value GeometryID.sensitive_mask
        GeometryID.sensitive_shift
      ≠ (GeometryID.mk 0xffff).value GeometryID.sensitive_mask
        GeometryID.sensitive_shift := by
  refine ⟨by decide, by decide, by decide⟩

/-- C4 (amended): for every `GeometryID` raw value `v < 2 ^ 64`, every two
distinct subfields among the six, and every addend confined to the second
field's mask whose addition does not carry out of that field, `value` on the
first field is unchanged by `operator+=`. -/
theorem geometryID_add_disjoint_field_amended (v a : Nat) (f1 f2 : GeoField)
    (hv : v < 2 ^ 64) (hne : f1 ≠ f2) (hconf : a &&& f2.mask = a)
    (hnc : v / 2 ^ f2.shift % 2 ^ f2.width + a / 2 ^ f2.shift < 2 ^ f2.width) :
    ((GeometryID.mk v).addValue a).value f1.mask f1.shift
      = (GeometryID.mk v).value f1.mask f1.shift := by
  rw [f2.mask_eq, and_field_mask] at hconf
  set b : Nat := a / 2 ^ f2.shift with hb
  have hab : a = b % 2 ^ f2.width * 2 ^ f2.shift := hconf.symm
  have hbmod : b = b % 2 ^ f2.width := by
    conv_lhs => rw [hb, hab]
    rw [Nat.mul_div_cancel _ (Nat.two_pow_pos f2.shift)]
  have hbw : b < 2 ^ f2.width := by
    rw [hbmod]; exact Nat.mod_lt _ (Nat.two_pow_pos _)
  have ha : a = b * 2 ^ f2.shift := by rw [← hbmod] at hab; exact hab
  have hnc' : v / 2 ^ f2.shift % 2 ^ f2.width + b < 2 ^ f2.width := hnc
  obtain ⟨hlow, hwrap⟩ :=
    field_decomp v b f2.shift f2.width hv f2.shift_width_le hnc'
  have haddv : (GeometryID.mk v).addValue a = GeometryID.mk (v + b * 2 ^ f2.shift) := by
    rw [GeometryID.addValue, ha, Nat.mod_eq_of_lt hwrap]
  rw [haddv, GeometryID.value_field, GeometryID.value_field]
  rcases GeoField.separated f1 f2 hne with hsep | hsep
  · exact field_below_preserved v b f2.shift f1.shift f1.width hsep
  · rw [field_above_preserved v b f2.shift f2.width f1.shift hlow hsep]

/-- Witness for the amended C4 theorem at a concrete input. -/
theorem geometryID_add_disjoint_field_amended_witness :
    3 < 2 ^ 64 ∧
    ((GeometryID.mk 3).addValue 5).value GeoField.volume.mask GeoField.volume.shift
      = (GeometryID.mk 3).value GeoField.volume.mask GeoField.volume.shift :=
  ⟨by decide,
    geometryID_add_disjoint_field_amended 3 5 GeoField.volume GeoField.channel
      (by decide) (by decide) (by decide) (by decide)⟩

/-! ## AbstractVolume::createBoundarySurfaces (Core/src/Volumes/AbstractVolume.cpp)

The surfaces decomposed from the volume bounds are modelled by their type tag
and an identity token; the volume itself by an identity token, so the
`inner`/`outer` back-reference pointers become `Option Nat`. -/

/-- `Surface::type()` tags relevant to the boundary construction. -/
inductive SurfaceType
  | Cylinder
  | Plane
  | Disc
  | Line
  | Cone
  deriving DecidableEq, Repr

/-- A surface produced by `decomposeToSurfaces`. -/
structure BSurf where
  stype : SurfaceType
  bsid : Nat
  deriving DecidableEq, Repr

/-- A `BoundarySurfaceT<AbstractVolume>` wrapper: the wrapped surface plus the
`inner` and `outer` volume back-references. -/
structure BoundarySurfaceW where
  surf : BSurf
  inner : Option Nat
  outer : Option Nat
  deriving DecidableEq, Repr

/-- `AbstractVolume::createBoundarySurfaces()`, translated statement by
statement.  `int sfCounter = 0;` is declared "to flip the inner/outer position
for Cylinders" but the loop body never increments it, so it stays `0` for
every surface (kept literally here). -/
def createBoundarySurfaces (volId : Nat) (surfaces : List BSurf) : List BoundarySurfaceW :=
  let sfCounter : Nat := 0
  let sfNumber : Nat := surfaces.length
  surfaces.map fun sf =>
    let innerVol : Option Nat :=
      if sf.stype = SurfaceType.Cylinder ∧ sfCounter = 3 ∧ sfNumber > 3 then none
      else some volId
    let outerVol : Option Nat := if innerVol.isSome then none else some volId
    { surf := sf, inner := innerVol, outer := outerVol }

/-- C2: on a volume (id 7) whose bounds decompose into 4 surfaces with the
surface at index 3 cylindrical, the code wraps *every* surface — including
the index-3 cylinder — with `inner = volume`, `outer = null`, because the
counter guarding the special case is never incremented.  This contradicts the
claimed flip for the index-3 cylinder. -/
theorem createBoundarySurfaces_no_cylinder_flip :
    createBoundarySurfaces 7
        [⟨SurfaceType.Plane, 0⟩, ⟨SurfaceType.Plane, 1⟩,
         ⟨SurfaceType.Disc, 2⟩, ⟨SurfaceType.Cylinder, 3⟩]
      = [⟨⟨SurfaceType.Plane, 0⟩, some 7, none⟩,
         ⟨⟨SurfaceType.Plane, 1⟩, some 7, none⟩,
         ⟨⟨SurfaceType.Disc, 2⟩, some 7, none⟩,
         ⟨⟨SurfaceType.Cylinder, 3⟩, some 7, none⟩] := by
  decide

/-! ## KalmanActor (Core/include/Acts/Fitter/KalmanActor.hpp)

Surfaces, layers and volumes are identified by tokens; the collaborator
objects the actor templates over (stepper `bind`, the Kalman updator, the
intersection estimate and the tracking-geometry lookup) are fields of a
`FitEnv` record of functions, so the actor's own control flow is translated
statement by statement while the collaborators stay abstract. -/

/-- A `Surface`: identity token plus the optional `associatedLayer()`
back-reference (a `Layer` token). -/
structure KSurface where
  sid : Nat
  assocLayer : Option Nat
  deriving DecidableEq, Repr, Inhabited

/-- A `TrackState` (the variant content is abstracted to a measurement token);
`detail::getSurface(tState)` is the `surface` field. -/
structure TrackState where
  surface : KSurface
  meas : Nat
  deriving DecidableEq, Repr, Inhabited

/-- The stepper's kinematic state: position, direction, momentum magnitude,
covariance (abstract tokens) and the navigation direction flag. -/
structure SteppingState where
  pos : Nat
  dir : Nat
  p : Nat
  cov : Nat
  navDir : Bool
  deriving DecidableEq, Repr

/-- The parameter set returned by a successful updator call:
`position()`, `momentum()` and `covariance()`. -/
structure UpdPar where
  position : Nat
  momentum : Nat
  covariance : Nat
  deriving DecidableEq, Repr

/-- The mutable propagator state visible to the actor:
`state.stepping`, `state.navigation.currentSurface`,
`state.navigation.sequence.externalSurfaces`, plus the propagation-abort flag
a termination branch would raise (see `kalmanStep`). -/
structure PropState where
  stepping : SteppingState
  currentSurface : Option KSurface
  externalSurfaces : List (Nat × KSurface)
  stopSignalled : Bool
  deriving DecidableEq, Repr

/-- `KalmanActor::this_result`: fitted states, processed-state counter and the
`std::map<const Surface*, size_t>` access index. -/
structure FitResult where
  fittedStates : List TrackState
  processedStates : Nat
  accessIndex : List (KSurface × Nat)
  deriving DecidableEq, Repr

/-- The collaborator contracts the actor is templated over.  `bindK` returns
the stepping state transported onto the surface together with the bound
state handed to the updator; `updator` returns `none` to reject the update;
`intersectionEstimate surface pos dir navDir bcheck` is the forward
intersection; `trackingVolume`/`associatedLayer` are the geometry lookups of
`state.navigation.worldVolume`. -/
structure FitEnv where
  bindK : SteppingState → KSurface → SteppingState × Nat
  updator : TrackState → Nat → Option UpdPar
  normalized : Nat → Nat
  normMag : Nat → Nat
  intersectionEstimate : KSurface → Nat → Nat → Bool → Bool → Option Nat
  hasWorldVolume : Bool
  trackingVolume : Nat → Option Nat
  associatedLayer : Nat → Nat → Option Nat

/-- Lookup in the `std::map<const Surface*, size_t>` access index
(`accessIndex.find(surface)`). -/
def mapFind : List (KSurface × Nat) → KSurface → Option Nat
  | [], _ => none
  | (s0, i0) :: rest, s => if s0 = s then some i0 else mapFind rest s

/-- `accessIndex[surface] = stateIndex`: `std::map::operator[]` insert-or-
overwrite. -/
def mapInsert : List (KSurface × Nat) → KSurface → Nat → List (KSurface × Nat)
  | [], s, i => [(s, i)]
  | (s0, i0) :: rest, s, i =>
    if s0 = s then (s0, i) :: rest else (s0, i0) :: mapInsert rest s i

/-- `std::multimap<const Layer*, const Surface*>::insert`: keep the list
sorted by layer key, a new entry going after all entries with a key `≤` its
own (so equal-key buckets keep insertion order). -/
def mmInsert : List (Nat × KSurface) → Nat → KSurface → List (Nat × KSurface)
  | [], l, sf => [(l, sf)]
  | (l0, s0) :: rest, l, sf =>
    if l < l0 then (l, sf) :: (l0, s0) :: rest
    else (l0, s0) :: mmInsert rest l sf

/-- Layer resolution for one surface inside `KalmanActor::initialize`: use the
`associatedLayer()` back-reference if present, otherwise intersect forward
from the stepper position and query the world volume; any failure leaves the
layer unresolved. -/
def resolveLayer (env : FitEnv) (st : SteppingState) (surface : KSurface) : Option Nat :=
  match surface.assocLayer with
  | some l => some l
  | none =>
    match env.intersectionEstimate surface st.pos st.dir st.navDir false,
        env.hasWorldVolume with
    | some ipos, true =>
      match env.trackingVolume ipos with
      | some volId => env.associatedLayer volId ipos
      | none => none
    | _, _ => none

/-- The indexing loop of `KalmanActor::initialize` over the track states:
threads the state position `stateIndex`, the measurement-surface multimap and
the access index. -/
def initLoop (env : FitEnv) (st : SteppingState) :
    List TrackState → Nat → List (Nat × KSurface) → List (KSurface × Nat) →
    List (Nat × KSurface) × List (KSurface × Nat)
  | [], _, mm, ai => (mm, ai)
  | t :: rest, i, mm, ai =>
    match resolveLayer env st t.surface with
    | some l => initLoop env st rest (i + 1) (mmInsert mm l t.surface) (mapInsert ai t.surface i)
    | none => initLoop env st rest (i + 1) mm ai

/-- `KalmanActor::initialize`: move the track states into the result, build
the measurement-surfaces multimap and the access index, and hand the multimap
to the navigation sequence.  (`trackStates` is a `const` member inside a
`const` member function, so the `std::move` degenerates to a copy.) -/
def initFit (env : FitEnv) (trackStates : List TrackState) (s : PropState)
    (r : FitResult) : PropState × FitResult :=
  let fitted := trackStates
  let built := initLoop env s.stepping fitted 0 [] r.accessIndex
  ({ s with externalSurfaces := built.1 },
   { r with fittedStates := fitted, accessIndex := built.2 })

/-- `KalmanActor::update`: look the surface up in the access index; if found,
transport-and-bind the stepping state onto the surface, run the updator on the
corresponding track state, commit the updated kinematics on success, and count
the processed state either way; if not found, do nothing. -/
def updateK (env : FitEnv) (surface : KSurface) (s : PropState) (r : FitResult) :
    PropState × FitResult :=
  match mapFind r.accessIndex surface with
  | none => (s, r)
  | some cindex =>
    let bound := env.bindK s.stepping surface
    let trackState := r.fittedStates.getD cindex default
    match env.updator trackState bound.2 with
    | some updPar =>
      let stepped :=
        { bound.1 with
          pos := updPar.position
          dir := env.normalized updPar.momentum
          p := env.normMag updPar.momentum
          cov := updPar.covariance }
      ({ s with stepping := stepped },
       { r with processedStates := r.processedStates + 1 })
    | none =>
      ({ s with stepping := bound.1 },
       { r with processedStates := r.processedStates + 1 })

/-- `KalmanActor::operator()`: initialize when the fitted states are still
empty, run `update` on the currently reached surface if any, and then fall
through the termination comparison — in the source that comparison is a
dangling `if (processedStates == trackStates.size()) }` with no body (and
`processedStates` names no variable in scope there), so no stop condition is
ever raised and `stopSignalled` is left untouched. -/
def kalmanStep (env : FitEnv) (trackStates : List TrackState) (s : PropState)
    (r : FitResult) : PropState × FitResult :=
  let ir := if r.fittedStates.isEmpty then initFit env trackStates s r else (s, r)
  match ir.1.currentSurface with
  | some surface => updateK env surface ir.1 ir.2
  | none => ir

/-- The propagation engine's stepping loop (driver): per step, the navigation
collaborator reports the reached surface and the actor is invoked once. -/
def runSteps (env : FitEnv) (trackStates : List TrackState) :
    List (Option KSurface) → PropState → FitResult → PropState × FitResult
  | [], s, r => (s, r)
  | surf :: rest, s, r =>
    let stepped := kalmanStep env trackStates { s with currentSurface := surf } r
    runSteps env trackStates rest stepped.1 stepped.2

theorem mapFind_mapInsert_self (ai : List (KSurface × Nat)) (k : KSurface) (i : Nat) :
    mapFind (mapInsert ai k i) k = some i := by
  induction ai with
  | nil => simp [mapInsert, mapFind]
  | cons hd tl ih =>
    by_cases h : hd.1 = k
    · simp [mapInsert, mapFind, h]
    · simpa [mapInsert, mapFind, h] using ih

theorem mapFind_mapInsert_ne (ai : List (KSurface × Nat)) (k s : KSurface) (i : Nat)
    (h : k ≠ s) : mapFind (mapInsert ai k i) s = mapFind ai s := by
  induction ai with
  | nil => simp [mapInsert, mapFind, h]
  | cons hd tl ih =>
    by_cases h0 : hd.1 = k
    · simp [mapInsert, mapFind, h0, h]
    · simp [mapInsert, if_neg h0, mapFind, ih]

theorem mapInsert_mem (ai : List (KSurface × Nat)) (k : KSurface) (i : Nat)
    (p : KSurface × Nat) (hp : p ∈ mapInsert ai k i) : p = (k, i) ∨ p ∈ ai := by
  induction ai with
  | nil => simpa [mapInsert] using hp
  | cons hd tl ih =>
    by_cases h0 : hd.1 = k
    · rw [show mapInsert (hd :: tl) k i = (hd.1, i) :: tl from by
        simp [mapInsert, h0]] at hp
      rcases List.mem_cons.mp hp with hp | hp
      · left; rw [hp, h0]
      · right; exact List.mem_cons_of_mem _ hp
    · rw [show mapInsert (hd :: tl) k i = hd :: mapInsert tl k i from by
        simp [mapInsert, h0]] at hp
      rcases List.mem_cons.mp hp with hp | hp
      · right; rw [hp]; exact List.mem_cons_self _ _
      · rcases ih hp with h | h
        · left; exact h
        · right; exact List.mem_cons_of_mem _ h

theorem mapFind_some_mem (ai : List (KSurface × Nat)) (s : KSurface) (i : Nat)
    (h : mapFind ai s = some i) : (s, i) ∈ ai := by
  induction ai with
  | nil => simp [mapFind] at h
  | cons hd tl ih =>
    by_cases h0 : hd.1 = s
    · simp only [mapFind, if_pos h0] at h
      obtain ⟨a, b⟩ := hd
      subst h0
      injection h with h
      subst h
      exact List.mem_cons_self _ _
    · simp only [mapFind, if_neg h0] at h
      exact List.mem_cons_of_mem _ (ih h)

theorem mapInsert_of_find_none (ai : List (KSurface × Nat)) (k : KSurface) (i : Nat)
    (h : mapFind ai k = none) : mapInsert ai k i = ai ++ [(k, i)] := by
  induction ai with
  | nil => simp [mapInsert]
  | cons hd tl ih =>
    by_cases h0 : hd.1 = k
    · simp [mapFind, h0] at h
    · simp only [mapFind, if_neg h0] at h
      simp [mapInsert, h0, ih h]

theorem mapFind_append_single (ai : List (KSurface × Nat)) (k s : KSurface) (i : Nat) :
    mapFind (ai ++ [(k, i)]) s
      = match mapFind ai s with
        | some j => some j
        | none => if k = s then some i else none := by
  induction ai with
  | nil => simp [mapFind]
  | cons hd tl ih =>
    by_cases h0 : hd.1 = s <;> simp [mapFind, h0, ih]

theorem mmInsert_mem (mm : List (Nat × KSurface)) (l : Nat) (sf : KSurface)
    (p : Nat × KSurface) (hp : p ∈ mmInsert mm l sf) : p ∈ mm ∨ p = (l, sf) := by
  induction mm with
  | nil => simpa [mmInsert] using hp
  | cons hd tl ih =>
    by_cases h0 : l < hd.1
    · simp only [mmInsert, if_pos h0, List.mem_cons] at hp
      rcases hp with hp | hp | hp
      · right; exact hp
      · left; simp [hp]
      · left; exact List.mem_cons_of_mem _ hp
    · simp only [mmInsert, if_neg h0, List.mem_cons] at hp
      rcases hp with hp | hp
      · left; simp [hp]
      · rcases ih hp with h | h
        · left; exact List.mem_cons_of_mem _ h
        · right; exact h

theorem mmInsert_length (mm : List (Nat × KSurface)) (l : Nat) (sf : KSurface) :
    (mmInsert mm l sf).length = mm.length + 1 := by
  induction mm with
  | nil => simp [mmInsert]
  | cons hd tl ih =>
    by_cases h0 : l < hd.1 <;> simp [mmInsert, h0, ih]

theorem mmInsert_countP (mm : List (Nat × KSurface)) (l : Nat) (sf : KSurface)
    (f : Nat × KSurface → Bool) :
    (mmInsert mm l sf).countP f = mm.countP f + if f (l, sf) then 1 else 0 := by
  induction mm with
  | nil => simp [mmInsert, List.countP_cons]
  | cons hd tl ih =>
    obtain ⟨l0, s0⟩ := hd
    by_cases h0 : l < l0
    · simp only [mmInsert, if_pos h0, List.countP_cons]
    · simp only [mmInsert, if_neg h0, List.countP_cons, ih]
      omega

theorem mmInsert_comm (mm : List (Nat × KSurface)) (l l' : Nat) (sf sf' : KSurface)
    (h : l ≠ l') :
    mmInsert (mmInsert mm l sf) l' sf' = mmInsert (mmInsert mm l' sf') l sf := by
  induction mm with
  | nil =>
    rcases Nat.lt_or_ge l' l with h3 | h3
    · have h4 : ¬ l < l' := by omega
      simp [mmInsert, h3, h4]
    · have h4 : ¬ l' < l := by omega
      have h5 : l < l' := by omega
      simp [mmInsert, h4, h5]
  | cons hd tl ih =>
    obtain ⟨l0, s0⟩ := hd
    rcases Nat.lt_or_ge l l0 with h1 | h1 <;> rcases Nat.lt_or_ge l' l0 with h2 | h2
    · rcases Nat.lt_or_ge l' l with h3 | h3
      · have h4 : ¬ l < l' := by omega
        simp [mmInsert, h1, h2, h3, h4]
      · have h4 : ¬ l' < l := by omega
        have h5 : l < l' := by omega
        simp [mmInsert, h1, h2, h4, h5]
    · have h4 : ¬ l' < l0 := by omega
      have h5 : ¬ l' < l := by omega
      simp [mmInsert, h1, h4, h5]
    · have h4 : ¬ l < l0 := by omega
      have h5 : ¬ l < l' := by omega
      simp [mmInsert, h2, h4, h5]
    · have h4 : ¬ l < l0 := by omega
      have h5 : ¬ l' < l0 := by omega
      simp [mmInsert, h4, h5, ih]

/-- One step of the multimap construction inside the `initialize` loop. -/
def mmStep (env : FitEnv) (st : SteppingState) (mm : List (Nat × KSurface))
    (t : TrackState) : List (Nat × KSurface) :=
  match resolveLayer env st t.surface with
  | some l => mmInsert mm l t.surface
  | none => mm

theorem initLoop_mm (env : FitEnv) (st : SteppingState) :
    ∀ (ts : List TrackState) (i : Nat) (mm : List (Nat × KSurface))
      (ai : List (KSurface × Nat)),
      (initLoop env st ts i mm ai).1 = ts.foldl (mmStep env st) mm := by
  intro ts
  induction ts with
  | nil => intro i mm ai; rfl
  | cons t rest ih =>
    intro i mm ai
    cases hres : resolveLayer env st t.surface with
    | some l => simp [initLoop, hres, List.foldl_cons, mmStep, ih]
    | none => simp [initLoop, hres, List.foldl_cons, mmStep, ih]

theorem foldl_mmStep_length (env : FitEnv) (st : SteppingState) :
    ∀ (ts : List TrackState) (mm : List (Nat × KSurface)),
      (∀ t ∈ ts, (resolveLayer env st t.surface).isSome) →
      (ts.foldl (mmStep env st) mm).length = mm.length + ts.length := by
  intro ts
  induction ts with
  | nil => intro mm _; rfl
  | cons t rest ih =>
    intro mm hsome
    obtain ⟨l, hl⟩ := Option.isSome_iff_exists.mp (hsome t (by simp))
    rw [List.foldl_cons, show mmStep env st mm t = mmInsert mm l t.surface from by
      simp [mmStep, hl]]
    rw [ih _ (fun t' ht' => hsome t' (List.mem_cons_of_mem _ ht')), mmInsert_length]
    simp [List.length_cons]
    omega

theorem foldl_mmStep_perm (env : FitEnv) (st : SteppingState) :
    ∀ {ts ts' : List TrackState}, ts.Perm ts' →
      (∀ t ∈ ts, (resolveLayer env st t.surface).isSome) →
      ts.Pairwise (fun a b =>
        resolveLayer env st a.surface ≠ resolveLayer env st b.surface) →
      ∀ mm, ts.foldl (mmStep env st) mm = ts'.foldl (mmStep env st) mm := by
  intro ts ts' hperm
  induction hperm with
  | nil => intro _ _ mm; rfl
  | cons x h ih =>
    intro hsome hpair mm
    simp only [List.foldl_cons]
    exact ih (fun t ht => hsome t (List.mem_cons_of_mem _ ht)) hpair.of_cons _
  | swap x y l =>
    intro hsome hpair mm
    simp only [List.foldl_cons]
    have hy : (resolveLayer env st y.surface).isSome := hsome y (by simp)
    have hx : (resolveLayer env st x.surface).isSome := hsome x (by simp)
    have hne : resolveLayer env st y.surface ≠ resolveLayer env st x.surface :=
      (List.pairwise_cons.mp hpair).1 x (by simp)
    obtain ⟨ly, hly⟩ := Option.isSome_iff_exists.mp hy
    obtain ⟨lx, hlx⟩ := Option.isSome_iff_exists.mp hx
    have hll : ly ≠ lx := by
      rw [hly, hlx] at hne
      exact fun e => hne (by rw [e])
    have hcomm : mmStep env st (mmStep env st mm y) x
        = mmStep env st (mmStep env st mm x) y := by
      simp only [mmStep, hly, hlx]
      exact mmInsert_comm mm ly lx y.surface x.surface hll
    rw [hcomm]
  | trans h1 h2 ih1 ih2 =>
    intro hsome hpair mm
    have hsome2 := fun t ht => hsome t (h1.mem_iff.mpr ht)
    have hpair2 := (h1.pairwise_iff (fun hab => Ne.symm hab)).mp hpair
    rw [ih1 hsome hpair mm, ih2 hsome2 hpair2 mm]

/-- The access-index entries contributed by states all of whose layers
resolve: one `(surface, position)` pair per state, positions counting up
from `i`. -/
def enumIdx (i : Nat) : List TrackState → List (KSurface × Nat)
  | [] => []
  | t :: rest => (t.surface, i) :: enumIdx (i + 1) rest

theorem enumIdx_length : ∀ (ts : List TrackState) (i : Nat),
    (enumIdx i ts).length = ts.length := by
  intro ts
  induction ts with
  | nil => intro i; rfl
  | cons t rest ih => intro i; simp [enumIdx, ih]

theorem enumIdx_keys : ∀ (ts : List TrackState) (i : Nat),
    (enumIdx i ts).map Prod.fst = ts.map TrackState.surface := by
  intro ts
  induction ts with
  | nil => intro i; rfl
  | cons t rest ih => intro i; simp [enumIdx, ih]

theorem initLoop_ai_all (env : FitEnv) (st : SteppingState) :
    ∀ (ts : List TrackState) (i : Nat) (mm : List (Nat × KSurface))
      (ai : List (KSurface × Nat)),
      (∀ t ∈ ts, (resolveLayer env st t.surface).isSome) →
      (∀ t ∈ ts, mapFind ai t.surface = none) →
      ts.Pairwise (fun a b => a.surface ≠ b.surface) →
      (initLoop env st ts i mm ai).2 = ai ++ enumIdx i ts := by
  intro ts
  induction ts with
  | nil => intro i mm ai _ _ _; simp [initLoop, enumIdx]
  | cons t rest ih =>
    intro i mm ai hsome hfresh hpair
    obtain ⟨l, hl⟩ := Option.isSome_iff_exists.mp (hsome t (by simp))
    have hstep : initLoop env st (t :: rest) i mm ai
        = initLoop env st rest (i + 1) (mmInsert mm l t.surface)
            (mapInsert ai t.surface i) := by
      simp [initLoop, hl]
    have hins : mapInsert ai t.surface i = ai ++ [(t.surface, i)] :=
      mapInsert_of_find_none ai t.surface i (hfresh t (by simp))
    have hfresh2 : ∀ t' ∈ rest, mapFind (ai ++ [(t.surface, i)]) t'.surface = none := by
      intro t' ht'
      rw [mapFind_append_single, hfresh t' (List.mem_cons_of_mem _ ht')]
      have : t.surface ≠ t'.surface := (List.pairwise_cons.mp hpair).1 t' ht'
      simp [this]
    rw [hstep, hins, ih (i + 1) (mmInsert mm l t.surface) (ai ++ [(t.surface, i)])
      (fun t' ht' => hsome t' (List.mem_cons_of_mem _ ht')) hfresh2 hpair.of_cons]
    simp [enumIdx]

theorem initLoop_ai_bound (env : FitEnv) (st : SteppingState) :
    ∀ (ts : List TrackState) (i : Nat) (mm : List (Nat × KSurface))
      (ai : List (KSurface × Nat)),
      (∀ p ∈ ai, p.2 < i + ts.length) →
      ∀ p ∈ (initLoop env st ts i mm ai).2, p.2 < i + ts.length := by
  intro ts
  induction ts with
  | nil => intro i mm ai hbound p hp; exact hbound p hp
  | cons t rest ih =>
    intro i mm ai hbound p hp
    cases hres : resolveLayer env st t.surface with
    | some l =>
      rw [show initLoop env st (t :: rest) i mm ai
          = initLoop env st rest (i + 1) (mmInsert mm l t.surface)
              (mapInsert ai t.surface i) from by simp [initLoop, hres]] at hp
      have := ih (i + 1) (mmInsert mm l t.surface) (mapInsert ai t.surface i) ?_ p hp
      · simpa [List.length_cons, Nat.add_assoc, Nat.add_comm, Nat.add_left_comm] using this
      · intro q hq
        rcases mapInsert_mem ai t.surface i q hq with hq1 | hq1
        · rw [hq1]; simp [List.length_cons]; omega
        · have := hbound q hq1
          simp [List.length_cons] at this ⊢
          omega
    | none =>
      rw [show initLoop env st (t :: rest) i mm ai
          = initLoop env st rest (i + 1) mm ai from by simp [initLoop, hres]] at hp
      have := ih (i + 1) mm ai ?_ p hp
      · simpa [List.length_cons, Nat.add_assoc, Nat.add_comm, Nat.add_left_comm] using this
      · intro q hq
        have := hbound q hq
        simp [List.length_cons] at this ⊢
        omega

theorem initLoop_absent (env : FitEnv) (st : SteppingState) (sf : KSurface)
    (hres : resolveLayer env st sf = none) :
    ∀ (ts : List TrackState) (i : Nat) (mm : List (Nat × KSurface))
      (ai : List (KSurface × Nat)),
      mapFind ai sf = none →
      (∀ p ∈ mm, p.2 ≠ sf) →
      mapFind (initLoop env st ts i mm ai).2 sf = none
      ∧ ∀ p ∈ (initLoop env st ts i mm ai).1, p.2 ≠ sf := by
  intro ts
  induction ts with
  | nil => intro i mm ai hfind hmm; exact ⟨hfind, hmm⟩
  | cons t rest ih =>
    intro i mm ai hfind hmm
    cases hres2 : resolveLayer env st t.surface with
    | some l =>
      have hne : t.surface ≠ sf := by
        intro e
        rw [e, hres] at hres2
        exact Option.noConfusion hres2
      rw [show initLoop env st (t :: rest) i mm ai
          = initLoop env st rest (i + 1) (mmInsert mm l t.surface)
              (mapInsert ai t.surface i) from by simp [initLoop, hres2]]
      refine ih (i + 1) (mmInsert mm l t.surface) (mapInsert ai t.surface i) ?_ ?_
      · rw [mapFind_mapInsert_ne ai t.surface sf i hne]
        exact hfind
      · intro p hp
        rcases mmInsert_mem mm l t.surface p hp with hp1 | hp1
        · exact hmm p hp1
        · rw [hp1]; exact hne
    | none =>
      rw [show initLoop env st (t :: rest) i mm ai
          = initLoop env st rest (i + 1) mm ai from by simp [initLoop, hres2]]
      exact ih (i + 1) mm ai hfind hmm

/-- Zero-based position of the *last* state on a given surface. -/
def lastIdxOf (sf : KSurface) : List TrackState → Option Nat
  | [] => none
  | t :: rest =>
    match lastIdxOf sf rest with
    | some j => some (j + 1)
    | none => if t.surface = sf then some 0 else none

theorem initLoop_find_last (env : FitEnv) (st : SteppingState) (sf : KSurface)
    (l : Nat) (hres : resolveLayer env st sf = some l) :
    ∀ (ts : List TrackState) (i : Nat) (mm : List (Nat × KSurface))
      (ai : List (KSurface × Nat)),
      mapFind (initLoop env st ts i mm ai).2 sf
        = match lastIdxOf sf ts with
          | some j => some (i + j)
          | none => mapFind ai sf := by
  intro ts
  induction ts with
  | nil => intro i mm ai; simp [initLoop, lastIdxOf]
  | cons t rest ih =>
    intro i mm ai
    by_cases hts : t.surface = sf
    · -- this state lies on `sf`; its layer resolves like `sf` does
      have hres2 : resolveLayer env st t.surface = some l := by rw [hts, hres]
      rw [show initLoop env st (t :: rest) i mm ai
          = initLoop env st rest (i + 1) (mmInsert mm l t.surface)
              (mapInsert ai t.surface i) from by simp [initLoop, hres2]]
      rw [ih (i + 1) (mmInsert mm l t.surface) (mapInsert ai t.surface i)]
      cases hlast : lastIdxOf sf rest with
      | some j =>
        simp only [lastIdxOf, hlast]
        congr 1
        omega
      | none =>
        simp only [lastIdxOf, hlast, if_pos hts]
        rw [hts, mapFind_mapInsert_self]
        simp
    · cases hres2 : resolveLayer env st t.surface with
      | some l2 =>
        rw [show initLoop env st (t :: rest) i mm ai
            = initLoop env st rest (i + 1) (mmInsert mm l2 t.surface)
                (mapInsert ai t.surface i) from by simp [initLoop, hres2]]
        rw [ih (i + 1) (mmInsert mm l2 t.surface) (mapInsert ai t.surface i)]
        cases hlast : lastIdxOf sf rest with
        | some j =>
          simp only [lastIdxOf, hlast]
          congr 1
          omega
        | none =>
          simp only [lastIdxOf, hlast, if_neg hts]
          exact mapFind_mapInsert_ne ai t.surface sf i hts
      | none =>
        rw [show initLoop env st (t :: rest) i mm ai
            = initLoop env st rest (i + 1) mm ai from by simp [initLoop, hres2]]
        rw [ih (i + 1) mm ai]
        cases hlast : lastIdxOf sf rest with
        | some j =>
          simp only [lastIdxOf, hlast]
          congr 1
          omega
        | none =>
          simp only [lastIdxOf, hlast, if_neg hts]

theorem initLoop_count (env : FitEnv) (st : SteppingState) (sf : KSurface)
    (hres : (resolveLayer env st sf).isSome) :
    ∀ (ts : List TrackState) (i : Nat) (mm : List (Nat × KSurface))
      (ai : List (KSurface × Nat)),
      ((initLoop env st ts i mm ai).1.countP fun p => decide (p.2 = sf))
        = (mm.countP fun p => decide (p.2 = sf))
          + (ts.countP fun t => decide (t.surface = sf)) := by
  intro ts
  induction ts with
  | nil => intro i mm ai; simp [initLoop]
  | cons t rest ih =>
    intro i mm ai
    cases hres2 : resolveLayer env st t.surface with
    | some l =>
      rw [show initLoop env st (t :: rest) i mm ai
          = initLoop env st rest (i + 1) (mmInsert mm l t.surface)
              (mapInsert ai t.surface i) from by simp [initLoop, hres2]]
      rw [ih (i + 1) (mmInsert mm l t.surface) (mapInsert ai t.surface i)]
      rw [mmInsert_countP, List.countP_cons]
      simp only [decide_eq_true_eq]
      omega
    | none =>
      have hne : ¬ t.surface = sf := by
        intro e
        rw [e] at hres2
        rw [hres2] at hres
        simp at hres
      rw [show initLoop env st (t :: rest) i mm ai
          = initLoop env st rest (i + 1) mm ai from by simp [initLoop, hres2]]
      rw [ih (i + 1) mm ai, List.countP_cons]
      simp [hne]

theorem updateK_not_found (env : FitEnv) (surface : KSurface) (s : PropState)
    (r : FitResult) (hfind : mapFind r.accessIndex surface = none) :
    updateK env surface s r = (s, r) := by
  simp [updateK, hfind]

theorem updateK_found (env : FitEnv) (surface : KSurface) (s : PropState)
    (r : FitResult) (cindex : Nat)
    (hfind : mapFind r.accessIndex surface = some cindex) :
    (updateK env surface s r).2.accessIndex = r.accessIndex
    ∧ (updateK env surface s r).2.fittedStates = r.fittedStates
    ∧ (updateK env surface s r).2.processedStates = r.processedStates + 1 := by
  simp only [updateK, hfind]
  cases hupd : env.updator (r.fittedStates.getD cindex default)
      (env.bindK s.stepping surface).2 with
  | some updPar => simp [hupd]
  | none => simp [hupd]

/-! ### Concrete fixtures for witnesses and counterexamples -/

/-- A concrete collaborator environment whose updator always accepts. -/
def envT : FitEnv where
  bindK := fun st sf => ({ st with pos := st.pos + sf.sid, cov := st.cov + 1 }, sf.sid + 100)
  updator := fun t b => some ⟨t.meas + b, t.meas + 2 * b + 1, b + 3⟩
  normalized := fun m => m + 1000
  normMag := fun m => m + 2000
  intersectionEstimate := fun _ _ _ _ _ => none
  hasWorldVolume := false
  trackingVolume := fun _ => none
  associatedLayer := fun _ _ => none

/-- The same environment with an updator that always rejects. -/
def envR : FitEnv where
  bindK := fun st sf => ({ st with pos := st.pos + sf.sid, cov := st.cov + 1 }, sf.sid + 100)
  updator := fun _ _ => none
  normalized := fun m => m + 1000
  normMag := fun m => m + 2000
  intersectionEstimate := fun _ _ _ _ _ => none
  hasWorldVolume := false
  trackingVolume := fun _ => none
  associatedLayer := fun _ _ => none

def sA : KSurface := ⟨1, some 10⟩

def sB : KSurface := ⟨2, some 20⟩

def sC : KSurface := ⟨3, some 30⟩

def sD : KSurface := ⟨4, some 40⟩

def sE : KSurface := ⟨5, some 50⟩

/-- A surface with no associated layer (and, under `envT`, no intersection). -/
def sU : KSurface := ⟨9, none⟩

def tA : TrackState := ⟨sA, 1⟩

def tA2 : TrackState := ⟨sA, 11⟩

def tB : TrackState := ⟨sB, 2⟩

def tC : TrackState := ⟨sC, 3⟩

def tD : TrackState := ⟨sD, 4⟩

def tE : TrackState := ⟨sE, 5⟩

def tU : TrackState := ⟨sU, 7⟩

def stepping0 : SteppingState := ⟨0, 0, 0, 0, true⟩

def prop0 : PropState := ⟨stepping0, none, [], false⟩

def res0 : FitResult := ⟨[], 0, []⟩

/-- A result mid-fit: one fitted state, its surface indexed at position 0. -/
def resW : FitResult := ⟨[tA], 0, [(sA, 0)]⟩

/-! ### Claim theorems -/

/-- C1: on the five-state trajectory with each of the five known surfaces
reported once in order, `processedStates` does reach 5 on the 5th step, but
the actor never transitions to TERMINATED and never signals the propagation
engine to stop: the termination branch of `KalmanActor::operator()` is a
dangling `if (processedStates == trackStates.size()) }` with no body (and an
undefined name), so no stop condition exists in the code. -/
theorem kalmanActor_no_termination_signal :
    ((runSteps envT [tA, tB, tC, tD, tE]
        [some sA, some sB, some sC, some sD, some sE] prop0 res0).2.processedStates = 5)
    ∧ ((runSteps envT [tA, tB, tC, tD, tE]
        [some sA, some sB, some sC, some sD, some sE] prop0 res0).1.stopSignalled
      = false) := by
  refine ⟨by decide, by decide⟩

/-- C3: when the reached surface is present in `accessIndex` and the updator
returns no result, the actor still counts the state exactly once and leaves
the stepper at the transported (predicted) state delivered by `bind`; nothing
else in the propagator state or the result changes. -/
theorem updateK_rejected_skips (env : FitEnv) (surface : KSurface) (s : PropState)
    (r : FitResult) (cindex : Nat)
    (hfind : mapFind r.accessIndex surface = some cindex)
    (hrej : env.updator (r.fittedStates.getD cindex default)
        (env.bindK s.stepping surface).2 = none) :
    updateK env surface s r
      = ({ s with stepping := (env.bindK s.stepping surface).1 },
         { r with processedStates := r.processedStates + 1 }) := by
  simp only [updateK, hfind]
  rw [hrej]

/-- Witness for C3 at a concrete rejected update. -/
theorem updateK_rejected_skips_witness :
    mapFind resW.accessIndex sA = some 0 ∧
    updateK envR sA prop0 resW
      = ({ prop0 with stepping := (envR.bindK prop0.stepping sA).1 },
         { resW with processedStates := resW.processedStates + 1 }) :=
  ⟨by decide, updateK_rejected_skips envR sA prop0 resW 0 (by decide) (by decide)⟩

/-- C7: after initialization (`fittedStates` non-empty), an invocation whose
reported surface is not a key of `accessIndex` changes nothing: the whole
propagator state and the whole result are returned unchanged. -/
theorem kalmanStep_unknown_surface_inert (env : FitEnv) (ts : List TrackState)
    (s : PropState) (r : FitResult) (surface : KSurface)
    (hne : r.fittedStates ≠ [])
    (hcur : s.currentSurface = some surface)
    (hfind : mapFind r.accessIndex surface = none) :
    kalmanStep env ts s r = (s, r) := by
  have hempty : r.fittedStates.isEmpty = false := by
    cases h : r.fittedStates with
    | nil => exact absurd h hne
    | cons a l => rfl
  simp [kalmanStep, hempty, hcur, updateK, hfind]

/-- Witness for C7: surface `sB` is not indexed in `resW`. -/
theorem kalmanStep_unknown_surface_inert_witness :
    resW.fittedStates ≠ [] ∧
    kalmanStep envT [] { prop0 with currentSurface := some sB } resW
      = ({ prop0 with currentSurface := some sB }, resW) :=
  ⟨by decide, kalmanStep_unknown_surface_inert envT []
    { prop0 with currentSurface := some sB } resW sB (by decide) rfl (by decide)⟩

/-- C6: a track state whose surface has no associated layer and whose layer
cannot be resolved during initialization is absent from `accessIndex` and
from the measurement-surfaces multimap, and an update on its surface leaves
everything unchanged (it is never updated). -/
theorem initFit_unresolved_excluded (env : FitEnv) (ts : List TrackState)
    (s : PropState) (r : FitResult) (t0 : TrackState)
    (hmem : t0 ∈ ts)
    (hfail : resolveLayer env s.stepping t0.surface = none)
    (hai : r.accessIndex = []) :
    mapFind (initFit env ts s r).2.accessIndex t0.surface = none
    ∧ ((initFit env ts s r).1.externalSurfaces.countP
        fun p => decide (p.2 = t0.surface)) = 0
    ∧ updateK env t0.surface (initFit env ts s r).1 (initFit env ts s r).2
        = ((initFit env ts s r).1, (initFit env ts s r).2) := by
  have habs := initLoop_absent env s.stepping t0.surface hfail ts 0 [] r.accessIndex
    (by rw [hai]; rfl) (by intro p hp; simp at hp)
  have h1 : mapFind (initFit env ts s r).2.accessIndex t0.surface = none := habs.1
  have h2 : ((initFit env ts s r).1.externalSurfaces.countP
      fun p => decide (p.2 = t0.surface)) = 0 := by
    rw [List.countP_eq_zero]
    intro p hp
    simpa using habs.2 p hp
  exact ⟨h1, h2, updateK_not_found env t0.surface _ _ h1⟩

/-- Witness for C6: `tU` (surface with no layer, no intersection under
`envT`) inside a two-state trajectory. -/
theorem initFit_unresolved_excluded_witness :
    tU ∈ [tU, tA] ∧
    (mapFind (initFit envT [tU, tA] prop0 res0).2.accessIndex tU.surface = none
      ∧ ((initFit envT [tU, tA] prop0 res0).1.externalSurfaces.countP
          fun p => decide (p.2 = tU.surface)) = 0
      ∧ updateK envT tU.surface (initFit envT [tU, tA] prop0 res0).1
            (initFit envT [tU, tA] prop0 res0).2
          = ((initFit envT [tU, tA] prop0 res0).1,
             (initFit envT [tU, tA] prop0 res0).2)) :=
  ⟨by decide,
    initFit_unresolved_excluded envT [tU, tA] prop0 res0 tU (by decide) (by decide) rfl⟩

/-- C9: starting from a fresh (empty) access index, every index value stored
by `initialize` is strictly below the length of the moved `fittedStates`, so
the access `fittedStates[accessIndex[surface]]` made by `update` is in
bounds whenever the lookup succeeds. -/
theorem initFit_accessIndex_in_bounds (env : FitEnv) (ts : List TrackState)
    (s : PropState) (r : FitResult) (surface : KSurface) (idx : Nat)
    (hai : r.accessIndex = [])
    (hfind : mapFind (initFit env ts s r).2.accessIndex surface = some idx) :
    idx < (initFit env ts s r).2.fittedStates.length := by
  have hmem : (surface, idx) ∈ (initLoop env s.stepping ts 0 [] r.accessIndex).2 :=
    mapFind_some_mem _ _ _ hfind
  have hbound := initLoop_ai_bound env s.stepping ts 0 [] r.accessIndex
    (by rw [hai]; intro p hp; simp at hp) (surface, idx) hmem
  simpa using hbound

/-- Witness for C9 at a concrete one-state trajectory. -/
theorem initFit_accessIndex_in_bounds_witness :
    mapFind (initFit envT [tA] prop0 res0).2.accessIndex sA = some 0 ∧
    0 < (initFit envT [tA] prop0 res0).2.fittedStates.length :=
  ⟨by decide, initFit_accessIndex_in_bounds envT [tA] prop0 res0 sA 0 rfl (by decide)⟩

/-- C10: when several track states share one (resolvable) surface, the
multimap receives one entry per such state, while `accessIndex` maps the
surface to the position of the *last* such state, which is the one state
`update` then reads (the earlier duplicates are never updated). -/
theorem initFit_duplicate_surface_last_wins (env : FitEnv) (ts : List TrackState)
    (s : PropState) (r : FitResult) (surface : KSurface) (l j : Nat)
    (hai : r.accessIndex = [])
    (hres : resolveLayer env s.stepping surface = some l)
    (hlast : lastIdxOf surface ts = some j) :
    mapFind (initFit env ts s r).2.accessIndex surface = some j
    ∧ ((initFit env ts s r).1.externalSurfaces.countP
        fun p => decide (p.2 = surface))
      = ts.countP (fun t => decide (t.surface = surface))
    ∧ (initFit env ts s r).2.fittedStates.getD j default = ts.getD j default := by
  refine ⟨?_, ?_, rfl⟩
  · show mapFind (initLoop env s.stepping ts 0 [] r.accessIndex).2 surface = some j
    rw [initLoop_find_last env s.stepping surface l hres ts 0 [] r.accessIndex, hlast]
    simp
  · show ((initLoop env s.stepping ts 0 [] r.accessIndex).1.countP
        fun p => decide (p.2 = surface)) = ts.countP (fun t => decide (t.surface = surface))
    rw [initLoop_count env s.stepping surface (by rw [hres]; rfl) ts 0 [] r.accessIndex]
    simp

/-- Witness for C10: surface `sA` carried by the states at positions 0 and 1;
the index keeps position 1. -/
theorem initFit_duplicate_surface_last_wins_witness :
    lastIdxOf sA [tA, tA2, tB] = some 1 ∧
    (mapFind (initFit envT [tA, tA2, tB] prop0 res0).2.accessIndex sA = some 1
      ∧ ((initFit envT [tA, tA2, tB] prop0 res0).1.externalSurfaces.countP
          fun p => decide (p.2 = sA))
        = ([tA, tA2, tB].countP fun t => decide (t.surface = sA))
      ∧ (initFit envT [tA, tA2, tB] prop0 res0).2.fittedStates.getD 1 default
          = [tA, tA2, tB].getD 1 default) :=
  ⟨by decide,
    initFit_duplicate_surface_last_wins envT [tA, tA2, tB] prop0 res0 sA 10 1
      rfl (by decide) (by decide)⟩

/-- C8 (counterexample): a one-state fit in which the navigation collaborator
reports the same (already processed) surface on two invocations: the actor
silently re-runs the update and double-increments `processedStates` to 2 —
there is no assert and no report. -/
theorem kalman_revisit_counterexample :
    (runSteps envT [tA] [some sA, some sA] prop0 res0).2.processedStates = 2 := by
  decide

/-- C8 (amended): whenever the reported surface is (still) a key of
`accessIndex`, a second invocation on the same surface runs the update again
and increments `processedStates` a second time; nothing in the code asserts
or reports the revisit. -/
theorem kalman_revisit_double_increment (env : FitEnv) (surface : KSurface)
    (s : PropState) (r : FitResult) (cindex : Nat)
    (hfind : mapFind r.accessIndex surface = some cindex) :
    (updateK env surface (updateK env surface s r).1
        (updateK env surface s r).2).2.processedStates
      = r.processedStates + 2 := by
  obtain ⟨hai, hfs, hps⟩ := updateK_found env surface s r cindex hfind
  have hfind2 : mapFind (updateK env surface s r).2.accessIndex surface = some cindex := by
    rw [hai]; exact hfind
  obtain ⟨hai2, hfs2, hps2⟩ := updateK_found env surface (updateK env surface s r).1
    (updateK env surface s r).2 cindex hfind2
  omega

/-- Witness for the amended C8 at a concrete double visit. -/
theorem kalman_revisit_double_increment_witness :
    mapFind resW.accessIndex sA = some 0 ∧
    (updateK envT sA (updateK envT sA prop0 resW).1
        (updateK envT sA prop0 resW).2).2.processedStates
      = resW.processedStates + 2 :=
  ⟨by decide, kalman_revisit_double_increment envT sA prop0 resW 0 (by decide)⟩

/-- C5 (counterexample): two states on distinct resolvable layers; swapping
the input order changes the final contents of `accessIndex` (the stored
positions follow the input order), so the final contents of both indices are
*not* the same for every permutation of the input. -/
theorem initFit_perm_counterexample :
    ([tA, tB].Perm [tB, tA]) ∧
    (initFit envT [tA, tB] prop0 res0).2.accessIndex
      ≠ (initFit envT [tB, tA] prop0 res0).2.accessIndex := by
  exact ⟨List.Perm.swap tB tA [], by decide⟩

/-- C5 (amended): for N states on pairwise-distinct resolvable layers,
`initialize` yields an access index of size N and a multimap with N entries
for every input order; the multimap contents and the access-index key set are
permutation-invariant, while the access-index *values* record each state's
position in the actual input order (hence the full index contents are not). -/
theorem initFit_perm_amended (env : FitEnv) (s : PropState) (r : FitResult)
    (ts ts' : List TrackState) (hperm : ts.Perm ts')
    (hai : r.accessIndex = [])
    (hsome : ∀ t ∈ ts, (resolveLayer env s.stepping t.surface).isSome)
    (hpair : ts.Pairwise fun a b =>
      resolveLayer env s.stepping a.surface ≠ resolveLayer env s.stepping b.surface) :
    (initFit env ts s r).2.accessIndex.length = ts.length
    ∧ (initFit env ts' s r).2.accessIndex.length = ts.length
    ∧ (initFit env ts s r).1.externalSurfaces.length = ts.length
    ∧ (initFit env ts' s r).1.externalSurfaces = (initFit env ts s r).1.externalSurfaces
    ∧ ((initFit env ts' s r).2.accessIndex.map Prod.fst).Perm
        ((initFit env ts s r).2.accessIndex.map Prod.fst) := by
  have hsome' : ∀ t ∈ ts', (resolveLayer env s.stepping t.surface).isSome :=
    fun t ht => hsome t (hperm.mem_iff.mpr ht)
  have hpair' := (hperm.pairwise_iff (fun hab => Ne.symm hab)).mp hpair
  have hsne : ts.Pairwise fun a b => a.surface ≠ b.surface :=
    hpair.imp (fun hab e => hab (by rw [e]))
  have hsne' : ts'.Pairwise fun a b => a.surface ≠ b.surface :=
    hpair'.imp (fun hab e => hab (by rw [e]))
  have hfresh : ∀ t ∈ ts, mapFind r.accessIndex t.surface = none := by
    intro t _; rw [hai]; rfl
  have hfresh' : ∀ t ∈ ts', mapFind r.accessIndex t.surface = none := by
    intro t _; rw [hai]; rfl
  have hA : (initFit env ts s r).2.accessIndex = r.accessIndex ++ enumIdx 0 ts :=
    initLoop_ai_all env s.stepping ts 0 [] r.accessIndex hsome hfresh hsne
  have hA' : (initFit env ts' s r).2.accessIndex = r.accessIndex ++ enumIdx 0 ts' :=
    initLoop_ai_all env s.stepping ts' 0 [] r.accessIndex hsome' hfresh' hsne'
  have hM : (initFit env ts s r).1.externalSurfaces
      = ts.foldl (mmStep env s.stepping) [] :=
    initLoop_mm env s.stepping ts 0 [] r.accessIndex
  have hM' : (initFit env ts' s r).1.externalSurfaces
      = ts'.foldl (mmStep env s.stepping) [] :=
    initLoop_mm env s.stepping ts' 0 [] r.accessIndex
  refine ⟨?_, ?_, ?_, ?_, ?_⟩
  · rw [hA, hai]
    simp [enumIdx_length]
  · rw [hA', hai]
    simp [enumIdx_length, hperm.length_eq]
  · rw [hM, foldl_mmStep_length env s.stepping ts [] hsome]
    simp
  · rw [hM, hM']
    exact (foldl_mmStep_perm env s.stepping hperm hsome hpair []).symm
  · rw [hA, hA', hai]
    simp only [List.nil_append, enumIdx_keys]
    exact (hperm.map TrackState.surface).symm

/-- Witness for the amended C5 on the two-state swap. -/
theorem initFit_perm_amended_witness :
    [tA, tB].Perm [tB, tA] ∧
    ((initFit envT [tA, tB] prop0 res0).2.accessIndex.length = [tA, tB].length
      ∧ (initFit envT [tB, tA] prop0 res0).2.accessIndex.length = [tA, tB].length
      ∧ (initFit envT [tA, tB] prop0 res0).1.externalSurfaces.length = [tA, tB].length
      ∧ (initFit envT [tB, tA] prop0 res0).1.externalSurfaces
          = (initFit envT [tA, tB] prop0 res0).1.externalSurfaces
      ∧ ((initFit envT [tB, tA] prop0 res0).2.accessIndex.map Prod.fst).Perm
          ((initFit envT [tA, tB] prop0 res0).2.accessIndex.map Prod.fst)) :=
  ⟨List.Perm.swap tB tA [],
    initFit_perm_amended envT prop0 res0 [tA, tB] [tB, tA]
      (List.Perm.swap tB tA []) rfl (by decide) (by decide)⟩
